import Mathlib

/-!
Shallow embedding of the langweave hybrid language-identification engine
(src/language_detector.rs, src/language_detector_trait.rs, src/lib.rs,
src/optimized.rs) and proofs about the claims of its specification.

Strings are modelled as `List Char`.  Unicode character properties
(`char::is_alphabetic`, `char::is_whitespace`, the lowercase map used by
`str::to_lowercase`, and the script classes `\p{Cyrillic}` etc. of the
`regex` crate) are modelled over the code-point ranges of the scripts the
rule set actually names, which covers every character the program's rules
and the claims exercise.
-/

namespace Langweave

/-- Numeric code point of a character. -/
def cp (c : Char) : Nat := c.toNat

/-- Membership of a character in an inclusive code-point range. -/
def inRange (c : Char) (lo hi : Nat) : Bool :=
  decide (lo ≤ cp c) && decide (cp c ≤ hi)

/-- Model of Rust `char::is_whitespace` (Unicode White_Space):
ASCII whitespace plus the common Unicode space characters. -/
def isRustWhitespace (c : Char) : Bool :=
  inRange c 0x9 0xD || decide (cp c = 0x20) || decide (cp c = 0x85) ||
  decide (cp c = 0xA0) || decide (cp c = 0x1680) ||
  inRange c 0x2000 0x200A || decide (cp c = 0x2028) ||
  decide (cp c = 0x2029) || decide (cp c = 0x202F) ||
  decide (cp c = 0x205F) || decide (cp c = 0x3000)

/-- Model of `\p{Cyrillic}` over the main Cyrillic blocks. -/
def isCyrillic (c : Char) : Bool :=
  inRange c 0x400 0x4FF || inRange c 0x500 0x52F

/-- Model of `\p{Arabic}` over the main Arabic blocks. -/
def isArabicScript (c : Char) : Bool :=
  inRange c 0x600 0x6FF || inRange c 0x750 0x77F ||
  inRange c 0xFB50 0xFDFF || inRange c 0xFE70 0xFEFF

/-- Model of `\p{Hebrew}` over the Hebrew block. -/
def isHebrewScript (c : Char) : Bool :=
  inRange c 0x591 0x5F4

/-- Model of `\p{Devanagari}` over the Devanagari block. -/
def isDevanagari (c : Char) : Bool :=
  inRange c 0x900 0x97F

/-- Model of `\p{Hiragana}`. -/
def isHiragana (c : Char) : Bool :=
  inRange c 0x3041 0x3096 || inRange c 0x309D 0x309F

/-- Model of `\p{Katakana}`. -/
def isKatakana (c : Char) : Bool :=
  inRange c 0x30A1 0x30FA || inRange c 0x30FD 0x30FF ||
  inRange c 0x31F0 0x31FF || inRange c 0xFF66 0xFF9D

/-- Model of `\p{Han}` over the main CJK ideograph blocks. -/
def isHan (c : Char) : Bool :=
  inRange c 0x3400 0x4DBF || inRange c 0x4E00 0x9FFF ||
  inRange c 0xF900 0xFA6D

/-- Model of `\p{Hangul}`: jamo, compatibility jamo and syllables. -/
def isHangul (c : Char) : Bool :=
  inRange c 0x1100 0x11FF || inRange c 0x3130 0x318F ||
  inRange c 0xAC00 0xD7A3

/-- The Katakana-Hiragana prolonged sound mark, spelled literally in the
Japanese and Chinese rule patterns. -/
def choonpu : Char := Char.ofNat 0x30FC

/-- Model of the character class
`[\p{Han}&&[^\p{Hiragana}\p{Katakana}ー]]` of the Chinese rule. -/
def isHanNotKana (c : Char) : Bool :=
  isHan c && !(isHiragana c || isKatakana c || c == choonpu)

/-- Model of Rust `char::is_alphabetic` (Unicode Alphabetic) over the
scripts relevant to the rule set: Latin, Cyrillic, Hebrew, Arabic,
Devanagari letters and vowel signs, kana, Han and Hangul. -/
def isAlphabetic (c : Char) : Bool :=
  inRange c 0x41 0x5A || inRange c 0x61 0x7A ||
  inRange c 0xC0 0xD6 || inRange c 0xD8 0xF6 || inRange c 0xF8 0xFF ||
  inRange c 0x100 0x24F || inRange c 0x370 0x3FF ||
  isCyrillic c ||
  inRange c 0x5D0 0x5EA || inRange c 0x5EF 0x5F2 ||
  inRange c 0x620 0x64A || inRange c 0x66E 0x6D3 ||
  inRange c 0x904 0x94C || inRange c 0x958 0x961 ||
  isHiragana c || isKatakana c || c == choonpu ||
  isHan c || isHangul c ||
  decide (cp c = 0x212A) || decide (cp c = 0x212B)

/-- Model of the word-character class underlying the `\b` assertion of the
`regex` crate (Unicode `\w`): alphabetic, ASCII digit, or underscore. -/
def isWordChar (c : Char) : Bool :=
  isAlphabetic c || c.isDigit || c == '_'

/-- Model of the Unicode simple lowercase map used both by the `(?i)` flag
of the `regex` crate and by `str::to_lowercase`, over ASCII, Latin-1,
Cyrillic, and the Kelvin sign U+212A (whose lowercase is the ASCII `k`).
Characters outside the modelled ranges are fixed, which matches the real
map on every character whose case status the program can distinguish. -/
def rustCharLower (c : Char) : Char :=
  if 0x41 ≤ cp c ∧ cp c ≤ 0x5A then Char.ofNat (cp c + 0x20)
  else if 0xC0 ≤ cp c ∧ cp c ≤ 0xDE ∧ cp c ≠ 0xD7 then Char.ofNat (cp c + 0x20)
  else if 0x410 ≤ cp c ∧ cp c ≤ 0x42F then Char.ofNat (cp c + 0x20)
  else if cp c = 0x401 then Char.ofNat 0x451
  else if cp c = 0x212A then 'k'
  else c

/-- Case-insensitive character comparison, as performed by a `(?i)`
pattern. -/
def foldEq (a b : Char) : Bool :=
  rustCharLower a == rustCharLower b

/-- Strips a keyword from the front of the text, case-insensitively;
returns the remaining text on success.  Models the literal-word part of a
keyword alternation pattern. -/
def stripKeyword : List Char → List Char → Option (List Char)
  | [], rest => some rest
  | _ :: _, [] => none
  | k :: ks, c :: cs => if foldEq k c then stripKeyword ks cs else none

/-- Whether a word boundary holds at the start of the remaining text
(used for the trailing `\b` of the Latin keyword patterns). -/
def boundaryHere : List Char → Bool
  | [] => true
  | c :: _ => !isWordChar c

/-- Whether the keyword matches at the current position, with a trailing
word boundary required iff `needEnd`. -/
def kwAt (needEnd : Bool) (kw cs : List Char) : Bool :=
  match stripKeyword kw cs with
  | some rest => !needEnd || boundaryHere rest
  | none => false

/-- Scans the text for a `\b`-anchored, case-insensitive occurrence of the
keyword.  `prevWord` records whether the previous character is a word
character: since every keyword of the rule set begins with a word
character, the leading `\b` holds exactly when the previous character is
not one. -/
def kwScan (needEnd : Bool) (kw : List Char) : Bool → List Char → Bool
  | _, [] => false
  | prevWord, c :: cs =>
    (!prevWord && kwAt needEnd kw (c :: cs)) ||
    kwScan needEnd kw (isWordChar c) cs

/-- Whether the pattern `(?i)\b(kw)` (and `\b` after, iff `needEnd`)
matches anywhere in the text. -/
def kwMatch (needEnd : Bool) (kw : List Char) (cs : List Char) : Bool :=
  kwScan needEnd kw false cs

/-- Whether a keyword alternation `(?i)\b(w1|...|wn)` matches anywhere in
the text. -/
def anyKw (needEnd : Bool) (kws : List (List Char)) (cs : List Char) : Bool :=
  kws.any fun kw => kwMatch needEnd kw cs

/-- Whether a script character class `[cls]+` matches anywhere in the
text. -/
def scriptMatch (cls : Char → Bool) (cs : List Char) : Bool :=
  cs.any cls

/-- A compiled rule: the match semantics of one regex of the Pattern Rule
Set paired with its language code (`(Regex, &'static str)` in the
source). -/
structure Rule where
  test : List Char → Bool
  lang : List Char

/-- The apostrophe character, used by one French keyword. -/
def apos : Char := Char.ofNat 0x27

def kws (l : List String) : List (List Char) := l.map String.data

/-- Keywords of the English rule. -/
def enKws : List (List Char) :=
  kws ["hello", "hi", "hey", "goodbye", "bye", "thank you", "thanks",
       "please", "the", "a", "an", "in", "on", "at", "for", "to", "of"]

/-- Keywords of the French rule (one contains an apostrophe). -/
def frKws : List (List Char) :=
  kws ["bonjour", "salut", "au revoir", "merci"] ++
  [("s" ++ String.singleton apos ++ "il vous plaît").data] ++
  kws ["le", "la", "les", "un", "une", "des", "dans", "sur", "pour", "de"]

/-- Keywords of the German rule. -/
def deKws : List (List Char) :=
  kws ["hallo", "guten tag", "auf wiedersehen", "tschüss", "danke",
       "bitte", "der", "die", "das", "ein", "eine", "in", "auf", "für",
       "zu", "von"]

/-- Keywords of the Spanish rule. -/
def esKws : List (List Char) :=
  kws ["hola", "adiós", "gracias", "por favor", "el", "la", "los", "las",
       "un", "una", "unos", "unas", "en", "para", "por"]

/-- Keywords of the Portuguese rule. -/
def ptKws : List (List Char) :=
  kws ["olá", "adeus", "obrigado", "obrigada", "por favor", "o", "a",
       "os", "as", "um", "uma", "uns", "umas", "em", "para", "por"]

/-- Keywords of the Russian rule. -/
def ruKws : List (List Char) :=
  kws ["здравствуйте", "привет", "до свидания", "пока", "спасибо",
       "пожалуйста"]

/-- Keywords of the Japanese rule. -/
def jaKws : List (List Char) :=
  kws ["こんにちは", "さようなら", "ありがとう", "お願いします"]

/-- Keywords of the Chinese rule. -/
def zhKws : List (List Char) :=
  kws ["你好", "再见", "谢谢", "请"]

/-- Keywords of the Hindi rule. -/
def hiKws : List (List Char) :=
  kws ["नमस्ते", "अलविदा", "धन्यवाद", "कृपया"]

/-- Keywords of the Korean rule. -/
def koKws : List (List Char) :=
  kws ["안녕하세요", "안녕히 가세요", "감사합니다", "주세요"]

/-- Keywords of the Italian rule. -/
def itKws : List (List Char) :=
  kws ["ciao", "buongiorno", "grazie", "prego", "arrivederci", "il",
       "la", "lo", "gli", "le", "un", "una", "in", "di", "per", "con"]

/-- Keywords of the Dutch rule. -/
def nlKws : List (List Char) :=
  kws ["hallo", "goedemorgen", "dank", "alstublieft", "tot ziens", "de",
       "het", "een", "van", "in", "op", "voor", "met"]

/-- Keywords of the Hebrew rule. -/
def heKws : List (List Char) :=
  kws ["שלום", "להתראות", "תודה", "בבקשה"]

/-- Keywords of the Indonesian rule. -/
def idKws : List (List Char) :=
  kws ["halo", "selamat", "terima kasih", "tolong", "sampai jumpa",
       "yang", "dan", "atau", "ini", "itu", "dengan", "untuk"]

/-- The compiled Pattern Rule Set, in the exact order of
`compile_language_patterns`: each entry is the match semantics of the
regex given there, paired with its language code. -/
def compiledPatterns : List Rule :=
  [ ⟨anyKw true enKws, "en".data⟩,
    ⟨anyKw true frKws, "fr".data⟩,
    ⟨anyKw true deKws, "de".data⟩,
    ⟨anyKw true esKws, "es".data⟩,
    ⟨anyKw true ptKws, "pt".data⟩,
    ⟨fun cs => anyKw false ruKws cs || scriptMatch isCyrillic cs, "ru".data⟩,
    ⟨scriptMatch isArabicScript, "ar".data⟩,
    ⟨fun cs => anyKw false jaKws cs ||
      scriptMatch (fun c => isHiragana c || isKatakana c || c == choonpu) cs,
      "ja".data⟩,
    ⟨fun cs => anyKw false zhKws cs || scriptMatch isHanNotKana cs, "zh".data⟩,
    ⟨fun cs => anyKw false hiKws cs || scriptMatch isDevanagari cs, "hi".data⟩,
    ⟨fun cs => anyKw false koKws cs || scriptMatch isHangul cs, "ko".data⟩,
    ⟨anyKw true itKws, "it".data⟩,
    ⟨anyKw true nlKws, "nl".data⟩,
    ⟨fun cs => anyKw false heKws cs || scriptMatch isHebrewScript cs, "he".data⟩,
    ⟨anyKw true idKws, "id".data⟩ ]

/-- The error type of the library (src/error.rs, `I18nError`). -/
inductive I18nError where
  | languageDetectionFailed
  | translationFailed (msg : List Char)
  | unsupportedLanguage (lang : List Char)
  | unexpectedError (msg : List Char)
deriving DecidableEq, Repr

/-- Modelled from the spec: the classifier-internal language identifiers
of the external whole-word statistical classifier (the `whatlang` crate's
`Lang` enum, which is not part of this repository).  The fifteen
identifiers the normalizer knows are explicit constructors; every other
identifier is represented by `other` together with its native code
string. -/
inductive WLang where
  | eng | fra | deu | spa | por | jpn | cmn | ara | hin | kor | rus
  | ita | nld | heb | ind
  | other (native : List Char)
deriving DecidableEq, Repr

/-- Modelled from the spec: the classifier's own native code string for an
identifier (`whatlang::Lang::code`, ISO 639-3). -/
def WLang.code : WLang → List Char
  | .eng => "eng".data
  | .fra => "fra".data
  | .deu => "deu".data
  | .spa => "spa".data
  | .por => "por".data
  | .jpn => "jpn".data
  | .cmn => "cmn".data
  | .ara => "ara".data
  | .hin => "hin".data
  | .kor => "kor".data
  | .rus => "rus".data
  | .ita => "ita".data
  | .nld => "nld".data
  | .heb => "heb".data
  | .ind => "ind".data
  | .other native => native

/-- Modelled from the spec: the classification result of the external
classifier for one word (`whatlang::Info`): a language identifier, a
confidence score, and a reliability flag. -/
structure WInfo where
  lang : WLang
  confidence : ℚ
  reliable : Bool
deriving DecidableEq

/-- The acceptance test of the statistical fallback pass:
`info.is_reliable() || info.confidence() > 0.3`. -/
def WInfo.accepted (i : WInfo) : Bool :=
  i.reliable || decide ((3 : ℚ) / 10 < i.confidence)

/-- A classifier is the external seam the orchestrator calls per word
(`whatlang::detect`); it is a parameter of the embedding. -/
def Classifier : Type := List Char → Option WInfo

/-- Embedding of `LanguageDetector::convert_lang_code`: maps the fifteen
known classifier identifiers to the engine's canonical 2-letter codes and
falls through to `lang.code()` for every other identifier. -/
def convert_lang_code : WLang → List Char
  | .eng => "en".data
  | .fra => "fr".data
  | .deu => "de".data
  | .spa => "es".data
  | .por => "pt".data
  | .jpn => "ja".data
  | .cmn => "zh".data
  | .ara => "ar".data
  | .hin => "hi".data
  | .kor => "ko".data
  | .rus => "ru".data
  | .ita => "it".data
  | .nld => "nl".data
  | .heb => "he".data
  | .ind => "id".data
  | l => l.code

/-- Embedding of `str::trim`: removes leading and trailing whitespace. -/
def trim (cs : List Char) : List Char :=
  ((cs.dropWhile isRustWhitespace).reverse.dropWhile isRustWhitespace).reverse

/-- Helper of `splitWs`: `acc` holds the current word reversed. -/
def splitWsAux : List Char → List Char → List (List Char)
  | acc, [] => if acc.isEmpty then [] else [acc.reverse]
  | acc, c :: cs =>
    if isRustWhitespace c then
      if acc.isEmpty then splitWsAux [] cs
      else acc.reverse :: splitWsAux [] cs
    else splitWsAux (c :: acc) cs

/-- Embedding of `str::split_whitespace`: the whitespace-separated words
of the text, in order, with no empty words. -/
def splitWs (cs : List Char) : List (List Char) :=
  splitWsAux [] cs

/-- The statistical fallback loop of `detect`: scan the words left to
right and return the classifier result of the first word whose result is
accepted. -/
def fallbackScan (classify : Classifier) : List (List Char) → Option WInfo
  | [] => none
  | w :: ws =>
    match classify w with
    | some info => if info.accepted then some info else fallbackScan classify ws
    | none => fallbackScan classify ws

/-- Embedding of the `LanguageDetector` struct: it holds the shared
compiled rule list. -/
structure LanguageDetector where
  patterns : List Rule

/-- Embedding of `LanguageDetector::detect` (the blocking orchestrator):
trim, reject empty or non-alphabetic input, run the heuristic pass in
rule order, then the per-word statistical fallback pass. -/
def LanguageDetector.detect (d : LanguageDetector) (classify : Classifier)
    (text : List Char) : Except I18nError (List Char) :=
  let normalized := trim text
  if normalized.isEmpty || !(normalized.any isAlphabetic) then
    .error .languageDetectionFailed
  else
    match d.patterns.find? (fun r => r.test normalized) with
    | some r => .ok r.lang
    | none =>
      match fallbackScan classify (splitWs normalized) with
      | some info => .ok (convert_lang_code info.lang)
      | none => .error .languageDetectionFailed

/-- Embedding of `LanguageDetector::detect_async`: the body is exactly
`self.detect(text)` — a direct delegate with no worker hand-off. -/
def LanguageDetector.detect_async (d : LanguageDetector)
    (classify : Classifier) (text : List Char) :
    Except I18nError (List Char) :=
  d.detect classify text

/-- The fixed pattern-spec list of `compile_language_patterns`, as raw
(regex text, language code) pairs; the regex texts are opaque here and
matter only through the compiler parameter below. -/
def RegexCompiler : Type := String → Except (List Char) (List Char → Bool)

/-- Embedding of `compile_language_patterns_from_specs`, parameterized by
the regex compiler (`Regex::new`): compiles the specs in order and stops
at the first failure with `UnexpectedError`. -/
def compile_language_patterns_from_specs (compile : RegexCompiler) :
    List (String × String) → Except I18nError (List Rule)
  | [] => .ok []
  | (pat, code) :: rest =>
    match compile pat with
    | .ok m =>
      match compile_language_patterns_from_specs compile rest with
      | .ok rs => .ok (⟨m, code.data⟩ :: rs)
      | .error e => .error e
    | .error msg =>
      .error (.unexpectedError
        (("Failed to compile regex for language " ++ code ++ ": ").data ++ msg))

/-- Embedding of `patterns_or_empty`: on a compilation error the rule list
degrades to the empty list instead of propagating the error. -/
def patterns_or_empty (r : Except I18nError (List Rule)) : List Rule :=
  match r with
  | .ok ps => ps
  | .error _ => []

/-- Embedding of `LanguageDetector::new` over an arbitrary compiler and
spec list: `PATTERNS` is `patterns_or_empty (compile_language_patterns())`,
and `new` wraps the resulting list.  Every operation in the source body is
total, so the embedding returns a detector unconditionally. -/
def LanguageDetector.new (compile : RegexCompiler)
    (specs : List (String × String)) : LanguageDetector :=
  ⟨patterns_or_empty (compile_language_patterns_from_specs compile specs)⟩

/-- Embedding of `LanguageDetector::try_new`: propagates the compilation
error as a typed error. -/
def LanguageDetector.try_new (compile : RegexCompiler)
    (specs : List (String × String)) : Except I18nError LanguageDetector :=
  match compile_language_patterns_from_specs compile specs with
  | .ok ps => .ok ⟨ps⟩
  | .error e => .error e

/-- The detector built from the fixed rule list — the embedding of
`LanguageDetector::new()` in the production configuration, where every
regex of `compile_language_patterns` compiles and its semantics are the
matchers of `compiledPatterns`. -/
def stdDetector : LanguageDetector :=
  ⟨compiledPatterns⟩

/-- A detector in the composite's list, as the dynamic trait object sees
it: its blocking and non-blocking detection functions
(`LanguageDetectorTrait`). -/
structure DetectorImpl where
  det : List Char → Except I18nError (List Char)
  detAsync : List Char → Except I18nError (List Char)

/-- Embedding of `CompositeLanguageDetector`: an ordered list of boxed
detectors. -/
structure CompositeLanguageDetector where
  detectors : List DetectorImpl

/-- Embedding of `CompositeLanguageDetector::new`: an empty list. -/
def CompositeLanguageDetector.new : CompositeLanguageDetector :=
  ⟨[]⟩

/-- Embedding of `CompositeLanguageDetector::add_detector`: appends to the
end of the list. -/
def CompositeLanguageDetector.add_detector
    (c : CompositeLanguageDetector) (d : DetectorImpl) :
    CompositeLanguageDetector :=
  ⟨c.detectors ++ [d]⟩

/-- The loop of `CompositeLanguageDetector::detect`: first successful
detector wins; otherwise `LanguageDetectionFailed`. -/
def compositeRun (call : DetectorImpl → List Char → Except I18nError (List Char)) :
    List DetectorImpl → List Char → Except I18nError (List Char)
  | [], _ => .error .languageDetectionFailed
  | d :: ds, text =>
    match call d text with
    | .ok lang => .ok lang
    | .error _ => compositeRun call ds text

/-- Embedding of `CompositeLanguageDetector::detect`. -/
def CompositeLanguageDetector.detect (c : CompositeLanguageDetector)
    (text : List Char) : Except I18nError (List Char) :=
  compositeRun (fun d => d.det) c.detectors text

/-- Embedding of `CompositeLanguageDetector::detect_async`: the same loop
through each detector's non-blocking function. -/
def CompositeLanguageDetector.detect_async (c : CompositeLanguageDetector)
    (text : List Char) : Except I18nError (List Char) :=
  compositeRun (fun d => d.detAsync) c.detectors text

/-- Embedding of `supported_languages` (src/lib.rs): the fixed list of the
fifteen supported codes. -/
def supported_languages : List (List Char) :=
  ["en".data, "fr".data, "de".data, "es".data, "pt".data, "it".data,
   "nl".data, "ru".data, "ar".data, "he".data, "hi".data, "ja".data,
   "ko".data, "zh".data, "id".data]

/-- Embedding of `str::to_lowercase` through the modelled lowercase
map. -/
def rustToLowercase (cs : List Char) : List Char :=
  cs.map rustCharLower

/-- Embedding of `is_language_supported` (src/lib.rs):
`supported_languages().contains(&lang.to_lowercase())`. -/
def is_language_supported (lang : List Char) : Bool :=
  supported_languages.contains (rustToLowercase lang)

/-- Embedding of `SUPPORTED_LANGUAGE_CODES` (src/optimized.rs). -/
def SUPPORTED_LANGUAGE_CODES : List (List Char) :=
  ["en".data, "fr".data, "de".data, "es".data, "pt".data, "it".data,
   "nl".data, "ru".data, "ar".data, "he".data, "hi".data, "ja".data,
   "ko".data, "zh".data, "id".data]

/-- ASCII lowering of one character, the fold used by
`eq_ignore_ascii_case`. -/
def asciiLower (c : Char) : Char :=
  if 0x41 ≤ cp c ∧ cp c ≤ 0x5A then Char.ofNat (cp c + 0x20) else c

/-- Embedding of `str::eq_ignore_ascii_case`: equal length and pointwise
ASCII-case-insensitive equality.  (Bytewise equality modulo ASCII folding
of UTF-8 strings coincides with characterwise equality modulo ASCII
folding, since folding touches only single-byte characters.) -/
def eqIgnoreAsciiCase : List Char → List Char → Bool
  | [], [] => true
  | a :: as, b :: bs => asciiLower a == asciiLower b && eqIgnoreAsciiCase as bs
  | _, _ => false

/-- Embedding of `is_language_supported_optimized` (src/optimized.rs). -/
def is_language_supported_optimized (lang : List Char) : Bool :=
  SUPPORTED_LANGUAGE_CODES.any fun code => eqIgnoreAsciiCase code lang

/-- Embedding of `is_language_supported_zero_alloc` (src/optimized.rs):
fast path on an exact match against the fifteen lowercase literals, slow
path through the ASCII-case-insensitive scan. -/
def is_language_supported_zero_alloc (lang : List Char) : Bool :=
  if SUPPORTED_LANGUAGE_CODES.contains lang then true
  else SUPPORTED_LANGUAGE_CODES.any fun code => eqIgnoreAsciiCase code lang

/-- Success test of a detection outcome (`Result::is_ok`). -/
def isOkE (e : Except I18nError (List Char)) : Bool :=
  match e with
  | .ok _ => true
  | .error _ => false

/-- A word the statistical fallback pass does not accept: the classifier
returns nothing for it, or a result that is neither reliable nor above
the confidence threshold. -/
def wordRejected (classify : Classifier) (w : List Char) : Prop :=
  ∀ info, classify w = some info → info.accepted = false

/-- Characters of the trimmed text are characters of the text. -/
theorem mem_of_mem_trim {c : Char} {cs : List Char} (h : c ∈ trim cs) :
    c ∈ cs := by
  unfold trim at h
  have h1 := List.mem_reverse.mp h
  have h2 := List.dropWhile_subset _ h1
  have h3 := List.mem_reverse.mp h2
  exact List.dropWhile_subset _ h3

/-- A list on which some predicate holds is not empty. -/
theorem isEmpty_false_of_any {p : Char → Bool} {l : List Char}
    (h : l.any p = true) : l.isEmpty = false := by
  cases l with
  | nil => simp at h
  | cons a as => rfl

/-- Rejection case of the orchestrator: empty or non-alphabetic trimmed
input yields the detection-failure error. -/
theorem detect_reject (d : LanguageDetector) (classify : Classifier)
    (text : List Char)
    (h : (trim text).isEmpty = true ∨ (trim text).any isAlphabetic = false) :
    d.detect classify text = .error .languageDetectionFailed := by
  unfold LanguageDetector.detect
  rcases h with h | h <;> simp [h]

/-- Heuristic case of the orchestrator: once past the rejection gate, the
result of the heuristic pass is the first matching rule. -/
theorem detect_heuristic_eq (d : LanguageDetector) (classify : Classifier)
    (text : List Char) (r : Rule)
    (halpha : (trim text).any isAlphabetic = true)
    (hfind : (d.patterns.find? fun rl => rl.test (trim text)) = some r) :
    d.detect classify text = .ok r.lang := by
  unfold LanguageDetector.detect
  simp [isEmpty_false_of_any halpha, halpha, hfind]

/-- Fallback case of the orchestrator: when no rule matches, the result is
that of the statistical scan. -/
theorem detect_fallback_case (d : LanguageDetector) (classify : Classifier)
    (text : List Char)
    (halpha : (trim text).any isAlphabetic = true)
    (hfind : (d.patterns.find? fun rl => rl.test (trim text)) = none) :
    d.detect classify text =
      match fallbackScan classify (splitWs (trim text)) with
      | some info => .ok (convert_lang_code info.lang)
      | none => .error .languageDetectionFailed := by
  unfold LanguageDetector.detect
  simp [isEmpty_false_of_any halpha, halpha, hfind]

/-- The first-match characterization of `List.find?`: if the rule at
index `i` matches and every earlier rule fails, `find?` returns it. -/
theorem find?_of_first {l : List Rule} {p : Rule → Bool} {i : Nat} {r : Rule}
    (hget : l[i]? = some r) (hp : p r = true)
    (hbefore : ∀ k rk, k < i → l[k]? = some rk → p rk = false) :
    l.find? p = some r := by
  induction l generalizing i with
  | nil => simp at hget
  | cons a as ih =>
    cases i with
    | zero =>
      simp only [List.getElem?_cons_zero, Option.some.injEq] at hget
      subst hget
      simp [List.find?, hp]
    | succ n =>
      have ha : p a = false := hbefore 0 a (Nat.succ_pos n) (by simp)
      simp only [List.getElem?_cons_succ] at hget
      simp only [List.find?, ha]
      exact ih hget fun k rk hk hg =>
        hbefore (k + 1) rk (Nat.succ_lt_succ hk)
          (by simpa using hg)

/-- A rejected word is skipped by the fallback scan. -/
theorem fallbackScan_cons_rejected {classify : Classifier}
    {w : List Char} {ws : List (List Char)} (h : wordRejected classify w) :
    fallbackScan classify (w :: ws) = fallbackScan classify ws := by
  cases hc : classify w with
  | none => simp [fallbackScan, hc]
  | some info => simp [fallbackScan, hc, h info hc]

/-- A prefix of rejected words is skipped by the fallback scan. -/
theorem fallbackScan_append_rejected {classify : Classifier}
    {ws₁ ws₂ : List (List Char)} (h : ∀ w ∈ ws₁, wordRejected classify w) :
    fallbackScan classify (ws₁ ++ ws₂) = fallbackScan classify ws₂ := by
  induction ws₁ with
  | nil => rfl
  | cons w ws ih =>
    rw [List.cons_append,
        fallbackScan_cons_rejected (h w (List.mem_cons_self w ws))]
    exact ih fun w' hw' => h w' (List.mem_cons_of_mem _ hw')

/-- An accepted word stops the fallback scan with its result. -/
theorem fallbackScan_accept {classify : Classifier} {w : List Char}
    {ws : List (List Char)} {info : WInfo} (hc : classify w = some info)
    (ha : info.accepted = true) :
    fallbackScan classify (w :: ws) = some info := by
  simp [fallbackScan, hc, ha]

/-- The fallback scan of entirely rejected words yields nothing. -/
theorem fallbackScan_none {classify : Classifier} {ws : List (List Char)}
    (h : ∀ w ∈ ws, wordRejected classify w) :
    fallbackScan classify ws = none := by
  induction ws with
  | nil => rfl
  | cons w ws ih =>
    rw [fallbackScan_cons_rejected (h w (List.mem_cons_self w ws))]
    exact ih fun w' hw' => h w' (List.mem_cons_of_mem _ hw')

/-- C1: for every input string that is empty after trimming, or contains
no alphabetic character at all, both `detect` and `detect_async` return
the `LanguageDetectionFailed` error. -/
theorem c1_reject_nonalphabetic (d : LanguageDetector)
    (classify : Classifier) (text : List Char)
    (h : trim text = [] ∨ ∀ c ∈ text, isAlphabetic c = false) :
    d.detect classify text = .error .languageDetectionFailed ∧
    d.detect_async classify text = .error .languageDetectionFailed := by
  have hrej : (trim text).isEmpty = true ∨
      (trim text).any isAlphabetic = false := by
    rcases h with h | h
    · exact Or.inl (by simp [h])
    · right
      cases hany : (trim text).any isAlphabetic with
      | false => rfl
      | true =>
        exfalso
        rcases List.any_eq_true.mp hany with ⟨c, hc, hp⟩
        have := h c (mem_of_mem_trim hc)
        simp [this] at hp
  exact ⟨detect_reject d classify text hrej,
         detect_reject d classify text hrej⟩

/-- Witness for C1 at the symbols-and-digits input of the repository's
own test. -/
theorem c1_reject_nonalphabetic_witness :
    (trim "12345 @#$% !".data = [] ∨
      ∀ c ∈ "12345 @#$% !".data, isAlphabetic c = false) ∧
    (stdDetector.detect (fun _ => none) "12345 @#$% !".data =
        .error .languageDetectionFailed ∧
      stdDetector.detect_async (fun _ => none) "12345 @#$% !".data =
        .error .languageDetectionFailed) :=
  ⟨Or.inr (by decide),
   c1_reject_nonalphabetic stdDetector (fun _ => none) _ (Or.inr (by decide))⟩

/-- C4 counterexample: with a regex compiler failing on the spec list
`[("(", "xx")]` (the invalid pattern of the repository's own test),
`LanguageDetector::new` does not panic: `patterns_or_empty` absorbs the
compilation error and `new` returns normally, carrying the empty rule
list, while `try_new` returns the typed error.  A panic would have no
normal return value, so the first equation refutes the claim that `new`
panics when a pattern fails to compile. -/
theorem c4_new_counterexample :
    LanguageDetector.new (fun _ => .error "e".data) [("(", "xx")] =
      ⟨[]⟩ ∧
    LanguageDetector.try_new (fun _ => .error "e".data) [("(", "xx")] =
      .error (.unexpectedError
        ("Failed to compile regex for language xx: e".data)) :=
  ⟨rfl, rfl⟩

/-- C4 (amended): `new()` never panics — when any pattern fails to
compile it falls back to the empty rule list (degrading detection to the
statistical pass), while `try_new()` returns the typed compilation error;
on success both carry the compiled rules. -/
theorem c4_constructors (compile : RegexCompiler)
    (specs : List (String × String)) :
    (∀ e, compile_language_patterns_from_specs compile specs = .error e →
      LanguageDetector.new compile specs = ⟨[]⟩ ∧
      LanguageDetector.try_new compile specs = .error e) ∧
    (∀ ps, compile_language_patterns_from_specs compile specs = .ok ps →
      LanguageDetector.new compile specs = ⟨ps⟩ ∧
      LanguageDetector.try_new compile specs = .ok ⟨ps⟩) := by
  constructor
  · intro e he
    constructor
    · simp [LanguageDetector.new, patterns_or_empty, he]
    · simp [LanguageDetector.try_new, he]
  · intro ps hps
    constructor
    · simp [LanguageDetector.new, patterns_or_empty, hps]
    · simp [LanguageDetector.try_new, hps]

/-- Witness for C4 (amended) at the concrete failing compiler. -/
theorem c4_constructors_witness :
    compile_language_patterns_from_specs (fun _ => .error "e".data)
        [("(", "xx")] =
      .error (.unexpectedError
        ("Failed to compile regex for language xx: e".data)) ∧
    (LanguageDetector.new (fun _ => .error "e".data) [("(", "xx")] = ⟨[]⟩ ∧
     LanguageDetector.try_new (fun _ => .error "e".data) [("(", "xx")] =
       .error (.unexpectedError
         ("Failed to compile regex for language xx: e".data))) :=
  ⟨rfl, (c4_constructors (fun _ => .error "e".data) [("(", "xx")]).1 _ rfl⟩

/-- C6: for every input and detector, `detect` succeeds exactly when
`detect_async` succeeds, and on success the codes are equal — immediate
from `detect_async` being the direct delegate `self.detect(text)`. -/
theorem c6_sync_async_equiv (d : LanguageDetector) (classify : Classifier)
    (text : List Char) :
    isOkE (d.detect classify text) = isOkE (d.detect_async classify text) ∧
    ∀ s t, d.detect classify text = .ok s →
      d.detect_async classify text = .ok t → s = t := by
  refine ⟨rfl, ?_⟩
  intro s t hs ht
  have ht2 : d.detect classify text = .ok t := ht
  rw [hs] at ht2
  injection ht2

/-- Witness for C6 at the concrete input "hello". -/
theorem c6_sync_async_equiv_witness :
    isOkE (stdDetector.detect (fun _ => none) "hello".data) =
      isOkE (stdDetector.detect_async (fun _ => none) "hello".data) ∧
    ("en".data : List Char) = "en".data :=
  ⟨(c6_sync_async_equiv stdDetector (fun _ => none) "hello".data).1,
   (c6_sync_async_equiv stdDetector (fun _ => none) "hello".data).2
     "en".data "en".data rfl rfl⟩

/-- C8: `convert_lang_code` maps the fifteen known classifier
identifiers to the engine's canonical two-letter codes, and every
identifier outside that set (modelled by `WLang.other`) to the
classifier's own native code string, unchanged and without error. -/
theorem c8_convert_lang_code :
    (convert_lang_code .eng = "en".data ∧ convert_lang_code .fra = "fr".data ∧
     convert_lang_code .deu = "de".data ∧ convert_lang_code .spa = "es".data ∧
     convert_lang_code .por = "pt".data ∧ convert_lang_code .jpn = "ja".data ∧
     convert_lang_code .cmn = "zh".data ∧ convert_lang_code .ara = "ar".data ∧
     convert_lang_code .hin = "hi".data ∧ convert_lang_code .kor = "ko".data ∧
     convert_lang_code .rus = "ru".data ∧ convert_lang_code .ita = "it".data ∧
     convert_lang_code .nld = "nl".data ∧ convert_lang_code .heb = "he".data ∧
     convert_lang_code .ind = "id".data) ∧
    ∀ native, convert_lang_code (.other native) = (WLang.other native).code ∧
      (WLang.other native).code = native :=
  ⟨⟨rfl, rfl, rfl, rfl, rfl, rfl, rfl, rfl, rfl, rfl, rfl, rfl, rfl, rfl,
    rfl⟩,
   fun _ => ⟨rfl, rfl⟩⟩

/-- C2: in the heuristic pass the fixed rule list is scanned in its
registered order, and the first matching rule determines the result: its
language code is returned immediately.  For a text matching rules `i` and
`j` with `i < j` and no rule before `i` matching, the result is the code
of the earlier rule `i`. -/
theorem c2_heuristic_order (classify : Classifier) (text : List Char)
    (i j : Nat) (ri rj : Rule)
    (halpha : (trim text).any isAlphabetic = true)
    (hij : i < j)
    (hi : compiledPatterns[i]? = some ri)
    (hj : compiledPatterns[j]? = some rj)
    (hmi : ri.test (trim text) = true)
    (hmj : rj.test (trim text) = true)
    (hfirst : ∀ k rk, k < i → compiledPatterns[k]? = some rk →
      rk.test (trim text) = false) :
    stdDetector.detect classify text = .ok ri.lang :=
  detect_heuristic_eq stdDetector classify text ri halpha
    (find?_of_first hi hmi hfirst)

/-- Witness for C2: "hello Привет" matches both the English rule (index
0, via the keyword "hello") and the Russian rule (index 5, via the
Cyrillic class); the earlier English rule wins. -/
theorem c2_heuristic_order_witness :
    stdDetector.detect (fun _ => none) "hello Привет".data = .ok "en".data :=
  c2_heuristic_order (fun _ => none) "hello Привет".data 0 5
    ⟨anyKw true enKws, "en".data⟩
    ⟨fun cs => anyKw false ruKws cs || scriptMatch isCyrillic cs, "ru".data⟩
    (by decide) (by decide) rfl rfl (by decide) (by decide)
    (fun k rk hk _ => absurd hk (Nat.not_lt_zero k))

/-- Classifier used by the C3 witness: rejects "qqq" with confidence
1/10 and accepts "zzz" as Spanish with confidence 2/5. -/
def c3Classifier : Classifier := fun w =>
  if w = "qqq".data then some ⟨.other "xx".data, 1 / 10, false⟩
  else if w = "zzz".data then some ⟨.spa, 2 / 5, false⟩
  else none

/-- C3: when no heuristic rule matches, `detect` splits the trimmed text
on whitespace and scans the words left to right: the first word whose
classifier result is reliable or above confidence 0.3 decides the result
(its code normalized); if no word is accepted, detection fails. -/
theorem c3_statistical_fallback (d : LanguageDetector)
    (classify : Classifier) (text : List Char)
    (halpha : (trim text).any isAlphabetic = true)
    (hnorule : ∀ r ∈ d.patterns, r.test (trim text) = false) :
    (∀ ws₁ w ws₂ info, splitWs (trim text) = ws₁ ++ w :: ws₂ →
      (∀ w2 ∈ ws₁, wordRejected classify w2) →
      classify w = some info → info.accepted = true →
      d.detect classify text = .ok (convert_lang_code info.lang)) ∧
    ((∀ w ∈ splitWs (trim text), wordRejected classify w) →
      d.detect classify text = .error .languageDetectionFailed) := by
  have hfind : (d.patterns.find? fun rl => rl.test (trim text)) = none :=
    List.find?_eq_none.mpr fun r hr => by simp [hnorule r hr]
  constructor
  · intro ws₁ w ws₂ info hsplit hrej hc ha
    rw [detect_fallback_case d classify text halpha hfind, hsplit,
        fallbackScan_append_rejected hrej, fallbackScan_accept hc ha]
  · intro hall
    rw [detect_fallback_case d classify text halpha hfind,
        fallbackScan_none hall]

/-- Witness for C3 at the input "qqq zzz", which no heuristic rule
matches: with `c3Classifier` the second word is the first accepted one
and yields "es"; with a classifier accepting nothing, detection fails. -/
theorem c3_statistical_fallback_witness :
    stdDetector.detect c3Classifier "qqq zzz".data = .ok "es".data ∧
    stdDetector.detect (fun _ => none) "qqq zzz".data =
      .error .languageDetectionFailed := by
  constructor
  · refine (c3_statistical_fallback stdDetector c3Classifier "qqq zzz".data
      (by decide) (by decide)).1 ["qqq".data] "zzz".data [] ⟨.spa, 2 / 5, false⟩
      (by decide) ?_ rfl (by norm_num [WInfo.accepted])
    intro w2 hw2 info hinfo
    have hw : w2 = "qqq".data := by simpa using hw2
    subst hw
    have : some (⟨.other "xx".data, 1 / 10, false⟩ : WInfo) = some info := by
      rw [← hinfo]; rfl
    cases this
    norm_num [WInfo.accepted]
  · exact (c3_statistical_fallback stdDetector (fun _ => none)
      "qqq zzz".data (by decide) (by decide)).2
      fun w _ info h => nomatch h

/-- The first successful detector short-circuits the composite loop. -/
theorem compositeRun_ok
    (call : DetectorImpl → List Char → Except I18nError (List Char))
    {ds₁ : List DetectorImpl} {d : DetectorImpl} {ds₂ : List DetectorImpl}
    {text lang : List Char}
    (hfail : ∀ d2 ∈ ds₁, ∃ e, call d2 text = .error e)
    (hok : call d text = .ok lang) :
    compositeRun call (ds₁ ++ d :: ds₂) text = .ok lang := by
  induction ds₁ with
  | nil => simp [compositeRun, hok]
  | cons a as ih =>
    rcases hfail a (List.mem_cons_self a as) with ⟨e, he⟩
    rw [List.cons_append]
    simp [compositeRun, he]
    exact ih fun d2 hd2 => hfail d2 (List.mem_cons_of_mem _ hd2)

/-- When every detector of the list fails, the composite loop fails with
the detection-failure error. -/
theorem compositeRun_err
    (call : DetectorImpl → List Char → Except I18nError (List Char))
    {ds : List DetectorImpl} {text : List Char}
    (h : ∀ d2 ∈ ds, ∃ e, call d2 text = .error e) :
    compositeRun call ds text = .error .languageDetectionFailed := by
  induction ds with
  | nil => rfl
  | cons a as ih =>
    rcases h a (List.mem_cons_self a as) with ⟨e, he⟩
    simp [compositeRun, he]
    exact ih fun d2 hd2 => h d2 (List.mem_cons_of_mem _ hd2)

/-- C7: the composite detector scans its list in registration order
(`add_detector` appends) and returns, unchanged, the result of the first
detector that succeeds; an empty composite or one whose detectors all
fail returns `LanguageDetectionFailed`; in particular a failing detector
followed by a succeeding one yields the second detector's result.  The
same holds for the asynchronous loop. -/
theorem c7_composite :
    (∀ text, CompositeLanguageDetector.new.detect text =
        .error .languageDetectionFailed ∧
      CompositeLanguageDetector.new.detect_async text =
        .error .languageDetectionFailed) ∧
    (∀ ds₁ d ds₂ text lang,
      (∀ d2 ∈ ds₁, ∃ e, d2.det text = .error e) → d.det text = .ok lang →
      (CompositeLanguageDetector.mk (ds₁ ++ d :: ds₂)).detect text =
        .ok lang) ∧
    (∀ ds₁ d ds₂ text lang,
      (∀ d2 ∈ ds₁, ∃ e, d2.detAsync text = .error e) →
      d.detAsync text = .ok lang →
      (CompositeLanguageDetector.mk (ds₁ ++ d :: ds₂)).detect_async text =
        .ok lang) ∧
    (∀ ds text, (∀ d2 ∈ ds, ∃ e, d2.det text = .error e) →
      (CompositeLanguageDetector.mk ds).detect text =
        .error .languageDetectionFailed) ∧
    (∀ ds text, (∀ d2 ∈ ds, ∃ e, d2.detAsync text = .error e) →
      (CompositeLanguageDetector.mk ds).detect_async text =
        .error .languageDetectionFailed) ∧
    (∀ f g text lang e, f.det text = .error e → g.det text = .ok lang →
      ((CompositeLanguageDetector.new.add_detector f).add_detector
        g).detect text = .ok lang) := by
  refine ⟨fun text => ⟨rfl, rfl⟩, ?_, ?_, ?_, ?_, ?_⟩
  · intro ds₁ d ds₂ text lang hfail hok
    exact compositeRun_ok (fun d2 => d2.det) hfail hok
  · intro ds₁ d ds₂ text lang hfail hok
    exact compositeRun_ok (fun d2 => d2.detAsync) hfail hok
  · intro ds text h
    exact compositeRun_err (fun d2 => d2.det) h
  · intro ds text h
    exact compositeRun_err (fun d2 => d2.detAsync) h
  · intro f g text lang e hf hg
    show compositeRun (fun d2 => d2.det) (([] ++ [f]) ++ [g]) text = .ok lang
    simp [compositeRun, hf, hg]

/-- Detector that always fails, for the C7 witness. -/
def failDet : DetectorImpl :=
  ⟨fun _ => .error .languageDetectionFailed,
   fun _ => .error .languageDetectionFailed⟩

/-- Detector that always answers "en", for the C7 witness. -/
def okDet : DetectorImpl :=
  ⟨fun _ => .ok "en".data, fun _ => .ok "en".data⟩

/-- Witness for C7: an always-failing detector followed by an
always-succeeding one returns the second detector's result. -/
theorem c7_composite_witness :
    failDet.det "x".data = .error .languageDetectionFailed ∧
    okDet.det "x".data = .ok "en".data ∧
    ((CompositeLanguageDetector.new.add_detector failDet).add_detector
      okDet).detect "x".data = .ok "en".data :=
  ⟨rfl, rfl,
   c7_composite.2.2.2.2.2 failDet okDet "x".data "en".data
     .languageDetectionFailed rfl rfl⟩

/-- C9: the five script test vectors of the spec, on the detector built
from the fixed rule list, for every classifier (the heuristic pass
answers before the classifier is consulted). -/
theorem c9_script_tests (classify : Classifier) :
    stdDetector.detect classify "Здравствуйте".data = .ok "ru".data ∧
    stdDetector.detect classify "こんにちは".data = .ok "ja".data ∧
    stdDetector.detect classify "你好".data = .ok "zh".data ∧
    stdDetector.detect classify "مرحبا".data = .ok "ar".data ∧
    stdDetector.detect classify "안녕하세요".data = .ok "ko".data :=
  ⟨rfl, rfl, rfl, rfl, rfl⟩

/-- Bridge between the boolean `contains` and list membership. -/
theorem contains_iff_mem {l : List (List Char)} {a : List Char} :
    l.contains a = true ↔ a ∈ l := by
  simp [List.contains]

/-- The ASCII-case-insensitive comparison agrees with equality of the
ASCII-lowered strings. -/
theorem eqIgnoreAsciiCase_iff : ∀ a b : List Char,
    eqIgnoreAsciiCase a b = true ↔ a.map asciiLower = b.map asciiLower := by
  intro a
  induction a with
  | nil => intro b; cases b <;> simp [eqIgnoreAsciiCase]
  | cons x xs ih =>
    intro b
    cases b with
    | nil => simp [eqIgnoreAsciiCase]
    | cons y ys => simp [eqIgnoreAsciiCase, ih]

/-- The ASCII-case-insensitive comparison is reflexive. -/
theorem eqIgnoreAsciiCase_refl (a : List Char) :
    eqIgnoreAsciiCase a a = true :=
  (eqIgnoreAsciiCase_iff a a).mpr rfl

/-- On ASCII characters the modelled Unicode lowercase map is the ASCII
lowering. -/
theorem rustCharLower_ascii {c : Char} (h : cp c < 128) :
    rustCharLower c = asciiLower c := by
  unfold rustCharLower asciiLower
  by_cases h1 : 0x41 ≤ cp c ∧ cp c ≤ 0x5A
  · rw [if_pos h1, if_pos h1]
  · rw [if_neg h1, if_neg (by omega), if_neg (by omega), if_neg (by omega),
        if_neg (by omega), if_neg h1]

/-- On ASCII strings the modelled `to_lowercase` is the ASCII
lowering. -/
theorem rustToLowercase_ascii {l : List Char} (h : ∀ c ∈ l, cp c < 128) :
    rustToLowercase l = l.map asciiLower := by
  exact List.map_congr_left fun c hc => rustCharLower_ascii (h c hc)

/-- Every supported code is already ASCII-lowercase. -/
theorem codes_asciiLower_fixed :
    ∀ code ∈ SUPPORTED_LANGUAGE_CODES, code.map asciiLower = code := by
  decide

/-- The two fixed code lists of src/lib.rs and src/optimized.rs are
identical. -/
theorem supported_codes_same :
    SUPPORTED_LANGUAGE_CODES = supported_languages :=
  rfl

/-- C10 counterexample: on the two-character input Kelvin sign (U+212A)
followed by "o", Unicode lowercasing produces "ko", so the original
`is_language_supported` answers true, while both ASCII-case-insensitive
optimized variants answer false — the three functions do not agree on
every input. -/
theorem c10_kelvin_counterexample :
    is_language_supported [Char.ofNat 0x212A, 'o'] = true ∧
    is_language_supported_optimized [Char.ofNat 0x212A, 'o'] = false ∧
    is_language_supported_zero_alloc [Char.ofNat 0x212A, 'o'] = false := by
  refine ⟨by decide, by decide, by decide⟩

/-- C10 (amended): `is_language_supported_zero_alloc` agrees with
`is_language_supported_optimized` on every input, and on every input
whose characters are all ASCII both optimized variants agree with the
original `is_language_supported`; the agreement does not extend to
non-ASCII inputs such as the Kelvin sign. -/
theorem c10_ascii_agreement :
    (∀ lang, is_language_supported_zero_alloc lang =
      is_language_supported_optimized lang) ∧
    (∀ lang, (∀ c ∈ lang, cp c < 128) →
      is_language_supported_optimized lang = is_language_supported lang ∧
      is_language_supported_zero_alloc lang = is_language_supported lang) := by
  have hzero : ∀ lang, is_language_supported_zero_alloc lang =
      is_language_supported_optimized lang := by
    intro lang
    unfold is_language_supported_zero_alloc is_language_supported_optimized
    by_cases hc : SUPPORTED_LANGUAGE_CODES.contains lang = true
    · rw [if_pos hc]
      have hmem : lang ∈ SUPPORTED_LANGUAGE_CODES := contains_iff_mem.mp hc
      have hany : (SUPPORTED_LANGUAGE_CODES.any
          fun code => eqIgnoreAsciiCase code lang) = true :=
        List.any_eq_true.mpr ⟨lang, hmem, eqIgnoreAsciiCase_refl lang⟩
      exact hany.symm
    · rw [if_neg hc]
  have hopt : ∀ lang, (∀ c ∈ lang, cp c < 128) →
      is_language_supported_optimized lang = is_language_supported lang := by
    intro lang h
    rw [Bool.eq_iff_iff]
    unfold is_language_supported_optimized is_language_supported
    rw [List.any_eq_true, ← supported_codes_same, contains_iff_mem,
        rustToLowercase_ascii h]
    constructor
    · rintro ⟨code, hmem, heq⟩
      have := (eqIgnoreAsciiCase_iff code lang).mp heq
      rw [codes_asciiLower_fixed code hmem] at this
      exact this ▸ hmem
    · intro hmem
      refine ⟨lang.map asciiLower, hmem, ?_⟩
      exact (eqIgnoreAsciiCase_iff _ _).mpr
        (codes_asciiLower_fixed _ hmem)
  exact ⟨hzero, fun lang h =>
    ⟨hopt lang h, (hzero lang).trans (hopt lang h)⟩⟩

/-- Witness for C10 (amended) at the all-ASCII input "EN". -/
theorem c10_ascii_agreement_witness :
    (∀ c ∈ "EN".data, cp c < 128) ∧
    (is_language_supported_optimized "EN".data =
       is_language_supported "EN".data ∧
     is_language_supported_zero_alloc "EN".data =
       is_language_supported "EN".data) :=
  ⟨by decide, c10_ascii_agreement.2 "EN".data (by decide)⟩

end Langweave
